import Mathlib

/-! Shallow embedding of the `files_archiver` task service: the in-memory
repository (`internal/repository`), the task orchestrator
(`internal/service.TaskService`: `CreateTask`, `AddLinks`, `GetStatus`,
`downloadFile`, `createZipArchive`, `deleteFiles`) and the parts of the
configuration the pipeline reads.  Go maps become association lists,
`int64` becomes `Int`, the network becomes an explicit oracle, and the
local filesystem and the produced zip archives become explicit components
of the service state.  Operating-system calls that the service merely
propagates or logs (directory creation, file create/copy) are modeled as
total, so the only failures are the ones the service itself produces plus
transport failures of the network oracle. -/

namespace FilesArchiver

/-- Errors of the service layer, mirroring the error values declared in
`internal/service` (`ErrTaskNotFound`, `ErrTooManyLinks`, `ErrInvalidFile`,
`ErrFileTooLarge`, `ErrServerBusy`), plus `network` for transport errors
that the service returns verbatim from the HTTP client. -/
inductive Err
  | taskNotFound
  | tooManyLinks
  | invalidFile
  | fileTooLarge
  | serverBusy
  | network
deriving DecidableEq

/-- A Go `(value, error)` return where exactly one side is meaningful. -/
inductive Res (α : Type)
  | ok (a : α)
  | err (e : Err)
deriving DecidableEq

/-- `repository.Task`: ID, Status, URLs, ArchivePath.  The `URLs` field is
declared in the Go struct but never assigned anywhere in the code base. -/
structure Task where
  id : Int
  status : String
  urls : List String
  archivePath : String
deriving DecidableEq

/-- The fields of `config.Config` that the service reads. -/
structure Config where
  serverPort : Int
  fileMaxSize : Int
  fileAllowedExtensions : List String
deriving DecidableEq

/-- Network oracle: `head url` is the `Content-Type` header of a HEAD
response (`none` models a transport failure), `get url` is the declared
`ContentLength` (Go reports `-1` for unknown) and the response body of a
GET (`none` models a transport failure). -/
structure Network where
  head : String → Option String
  get : String → Option (Int × List Nat)

/-- Lookup in an association list, the Go map read `m[k]`. -/
def mapFind {κ α : Type} [DecidableEq κ] (m : List (κ × α)) (k : κ) : Option α :=
  match m with
  | [] => none
  | (k', v) :: rest => if k' = k then some v else mapFind rest k

/-- Upsert in an association list, the Go map write `m[k] = v`. -/
def mapUpd {κ α : Type} [DecidableEq κ] (m : List (κ × α)) (k : κ) (v : α) :
    List (κ × α) :=
  match m with
  | [] => [(k, v)]
  | (k', v') :: rest => if k' = k then (k, v) :: rest else (k', v') :: mapUpd rest k v

/-- Deletion from an association list, the Go `delete(m, k)` / `os.Remove`. -/
def mapDel {κ α : Type} [DecidableEq κ] (m : List (κ × α)) (k : κ) : List (κ × α) :=
  match m with
  | [] => []
  | (k', v) :: rest => if k' = k then mapDel rest k else (k', v) :: mapDel rest k

/-- Local filesystem: downloaded file path to its byte content. -/
abbrev FS := List (String × List Nat)

/-- The repository map `InMemoryRepository.Tasks`. -/
abbrev TaskMap := List (Int × Task)

/-- The zip archives produced so far: archive file name to its ordered
entry list (entry base name, entry byte content). -/
abbrev Archives := List (String × List (String × List Nat))

/-- Constants from `internal/service`. -/
def zipPath : String := "../archives"

/-- Constant `folderPath` from `internal/service`. -/
def folderPath : String := "archives/"

/-- Constant `folderPathImg` from `internal/service`. -/
def folderPathImg : String := "../downloads"

/-- Whole mutable state of one `TaskService` plus the world it touches:
repository map, the three package-level counters, the per-task URL ledger
`urlsByTask`, the download directory and the archive directory. -/
structure St where
  tasks : TaskMap
  taskCounter : Int
  activeTasksCounter : Int
  filesCounter : Int
  urlsByTask : List (Int × List String)
  fs : FS
  archives : Archives
deriving DecidableEq

/-- `NewTaskService` over `NewInMemoryRepository`: everything empty, all
counters zero. -/
def initSt : St :=
  { tasks := [], taskCounter := 0, activeTasksCounter := 0, filesCounter := 0,
    urlsByTask := [], fs := [], archives := [] }

/-- `InMemoryRepository.SaveTask`: upserts by `task.ID`, always returns
`nil` for the error. -/
def SaveTask (r : TaskMap) (t : Task) : TaskMap × Option Err :=
  (mapUpd r t.id t, none)

/-- `InMemoryRepository.GetTask`: lookup, error when the key is absent. -/
def GetTask (r : TaskMap) (id : Int) : Res Task :=
  match mapFind r id with
  | none => Res.err Err.taskNotFound
  | some t => Res.ok t

/-- The Go map read `s.urlsByTask[taskID]` (missing key yields `nil`). -/
def ledgerGet (s : St) (id : Int) : List String :=
  (mapFind s.urlsByTask id).getD []

/-- Archive base name `Task_NN` computed in `CreateTask` and again in
`createZipArchive`: IDs below 10 get one leading zero. -/
def zipBase (id : Int) : String :=
  if id < 10 then "Task_" ++ "0" ++ toString id else "Task_" ++ toString id

/-- `TaskService.CreateTask`: reject at three active tasks, otherwise bump
the active counter, allocate the next ID, store the task (status
`"создали"`, archive path derived from the ID) and create the empty
ledger entry. -/
def CreateTask (s : St) : Res Int × St :=
  if 3 ≤ s.activeTasksCounter then (Res.err Err.serverBusy, s)
  else
    let active := s.activeTasksCounter + 1
    let taskID := s.taskCounter + 1
    let task : Task :=
      { id := taskID, status := "создали", urls := [],
        archivePath := zipPath ++ "/" ++ zipBase taskID }
    let sv := SaveTask s.tasks task
    match sv.2 with
    | some e =>
        (Res.err e,
         { s with activeTasksCounter := active, taskCounter := taskID, tasks := sv.1 })
    | none =>
        (Res.ok taskID,
         { s with activeTasksCounter := active, taskCounter := taskID, tasks := sv.1,
                  urlsByTask := mapUpd s.urlsByTask taskID [] })

/-- `TaskService.AddLinks`: unknown task is `ErrTaskNotFound`; a ledger
already at three entries, or one that the new URLs would push past three,
is `ErrTooManyLinks`; otherwise append the URLs and save the task back
with status `"в процессе"`. -/
def AddLinks (s : St) (taskID : Int) (urls : List String) : Option Err × St :=
  match GetTask s.tasks taskID with
  | Res.err _ => (some Err.taskNotFound, s)
  | Res.ok task =>
    let currentURLs := ledgerGet s taskID
    if 3 ≤ currentURLs.length then (some Err.tooManyLinks, s)
    else if 3 < currentURLs.length + urls.length then (some Err.tooManyLinks, s)
    else
      let led := mapUpd s.urlsByTask taskID (ledgerGet s taskID ++ urls)
      let sv := SaveTask s.tasks { task with status := "в процессе" }
      match sv.2 with
      | some e => (some e, { s with urlsByTask := led, tasks := sv.1 })
      | none => (none, { s with urlsByTask := led, tasks := sv.1 })

/-- `filepath.Ext` restricted to `/` as the path separator: scan the path
from its end; a dot found before any separator starts the extension. -/
def extRevScan (acc : List Char) : List Char → String
  | [] => ""
  | c :: rest =>
    if c = '/' then ""
    else if c = '.' then String.mk ('.' :: acc)
    else extRevScan (c :: acc) rest

/-- `filepath.Ext` on a URL string, as `downloadFile` uses it. -/
def filepathExt (p : String) : String :=
  extRevScan [] p.toList.reverse

/-- Helper for `filepathBase`: collect the chars after the last `/`. -/
def baseRevScan (acc : List Char) : List Char → String
  | [] => String.mk acc
  | c :: rest => if c = '/' then String.mk acc else baseRevScan (c :: acc) rest

/-- `filepath.Base` restricted to `/` as the path separator. -/
def filepathBase (p : String) : String :=
  if p = "" then "."
  else
    let stripped := p.toList.reverse.dropWhile (fun c => c = '/')
    if stripped.isEmpty then "/" else baseRevScan [] stripped

/-- `strings.Contains hay sub` on the underlying character lists. -/
def startsWithChars : List Char → List Char → Bool
  | [], _ => true
  | _ :: _, [] => false
  | a :: as, b :: bs => a == b && startsWithChars as bs

/-- `strings.Contains`: does `sub` occur inside `hay`? -/
def containsChars (sub : List Char) : List Char → Bool
  | [] => sub.isEmpty
  | c :: rest => startsWithChars sub (c :: rest) || containsChars sub rest

/-- `strings.Contains` on strings. -/
def goContains (hay sub : String) : Bool :=
  containsChars sub.toList hay.toList

/-- `strings.ToLower` restricted to ASCII, which is all the service ever
feeds it (URL path extensions). -/
def goToLower (s : String) : String :=
  String.mk (s.toList.map Char.toLower)

/-- The extension allow-list loop of `downloadFile`: is `ext` equal to
`"." ++ allowed` for some configured extension? -/
def extAllowed (cfg : Config) (ext : String) : Bool :=
  cfg.fileAllowedExtensions.any (fun a => ext == "." ++ a)

/-- On-disk file name prefix `Task_NN_counter` generated by
`downloadFile` from the task ID and the bumped global file counter. -/
def prefName (taskID cnt : Int) : String :=
  if taskID < 10 then "Task_" ++ "0" ++ toString taskID ++ "_" ++ toString cnt
  else "Task_" ++ toString taskID ++ "_" ++ toString cnt

/-- The GET half of `downloadFile`: fetch the body, reject a declared
content length above `FileMaxSize`, bump the file counter, write the body
under the generated name and return the path.  `ext` is the extension the
validation phase settled on. -/
def doGet (cfg : Config) (net : Network) (fsc : Int) (fs : FS) (url : String)
    (taskID : Int) (ext : String) : Res String × Int × FS :=
  match net.get url with
  | none => (Res.err Err.network, fsc, fs)
  | some (contentLength, body) =>
    if cfg.fileMaxSize < contentLength then (Res.err Err.fileTooLarge, fsc, fs)
    else
      let cnt := fsc + 1
      let fileName := folderPathImg ++ "/" ++ prefName taskID cnt ++ ext
      (Res.ok fileName, cnt, mapUpd fs fileName body)

/-- `TaskService.downloadFile`: lower-case the URL-path extension and
check it against the allow-list; if it is not allowed, issue a HEAD
request and accept the first configured extension whose name occurs
inside the `Content-Type` header (which also replaces the extension used
for the stored file); with no match fail with `ErrInvalidFile`; then
perform the GET phase. -/
def downloadFile (cfg : Config) (net : Network) (fsc : Int) (fs : FS)
    (url : String) (taskID : Int) : Res String × Int × FS :=
  let ext := goToLower (filepathExt url)
  if extAllowed cfg ext then doGet cfg net fsc fs url taskID ext
  else
    match net.head url with
    | none => (Res.err Err.network, fsc, fs)
    | some contentType =>
      match cfg.fileAllowedExtensions.find? (fun a => goContains contentType a) with
      | some a => doGet cfg net fsc fs url taskID ("." ++ a)
      | none => (Res.err Err.invalidFile, fsc, fs)

/-- The download loop of `GetStatus`: download every ledger URL in order,
keep the paths of the successful ones (a failed download is logged and
skipped), threading the file counter and the filesystem. -/
def downloadAll (cfg : Config) (net : Network) (taskID : Int) :
    List String → Int → FS → List String × Int × FS
  | [], fsc, fs => ([], fsc, fs)
  | u :: rest, fsc, fs =>
    let r := downloadFile cfg net fsc fs u taskID
    let tail := downloadAll cfg net taskID rest r.2.1 r.2.2
    match r.1 with
    | Res.err _ => tail
    | Res.ok fp => (fp :: tail.1, tail.2)

/-- The entry list the zip writer loop of `createZipArchive` produces:
each input file that can be opened is added in order under its base name
with its byte content (an unopenable file is logged and skipped). -/
def entriesOf (fs : FS) (files : List String) : List (String × List Nat) :=
  files.filterMap (fun fp => (mapFind fs fp).map (fun body => (filepathBase fp, body)))

/-- The name `createZipArchive` creates the archive file under: the
stored task's `ArchivePath` (Go's zero-value `Task` when the ID is
absent) plus `".zip"`. -/
def archiveKey (tasks : TaskMap) (taskID : Int) : String :=
  ((mapFind tasks taskID).getD
    { id := 0, status := "", urls := [], archivePath := "" }).archivePath ++ ".zip"

/-- `TaskService.createZipArchive`: write the entry list to the archive
file named after the stored task's `ArchivePath`, then return a path
rebuilt from `folderPath` and the `Task_NN` base name (note: a different
directory prefix than the file just written). -/
def createZipArchive (tasks : TaskMap) (fs : FS) (archives : Archives)
    (taskID : Int) (files : List String) : String × Archives :=
  (folderPath ++ zipBase taskID ++ ".zip",
   mapUpd archives (archiveKey tasks taskID) (entriesOf fs files))

/-- `deleteFiles`: remove each listed path that exists; with the
filesystem operations modeled total no error is ever produced. -/
def deleteFiles : FS → List String → FS × Option Err
  | fs, [] => (fs, none)
  | fs, f :: rest => deleteFiles (mapDel fs f) rest

/-- The JSON object `GetStatus` answers with: a `status` string and an
optional `archive_url`. -/
structure StatusResult where
  status : String
  archiveUrl : Option String
deriving DecidableEq

/-- The pipeline branch of `GetStatus` (ledger at three URLs or more):
download everything; with no successful download save the task back with
status `"неуспешно"` and answer `"failed"`; otherwise build the archive,
delete the local files (the deletion error is only logged), save the task
back with status `"завершена"` and the archive path returned by
`createZipArchive`, decrement the active counter and answer with the
public archive URL. -/
def runPipeline (cfg : Config) (net : Network) (s : St) (taskID : Int)
    (task : Task) : Res StatusResult × St :=
  let d := downloadAll cfg net taskID (ledgerGet s taskID) s.filesCounter s.fs
  if d.1.isEmpty then
    (Res.ok { status := "failed", archiveUrl := none },
     { s with filesCounter := d.2.1, fs := d.2.2,
              tasks := (SaveTask s.tasks { task with status := "неуспешно" }).1 })
  else
    let az := createZipArchive s.tasks d.2.2 s.archives taskID d.1
    let fsd := deleteFiles d.2.2 d.1
    (Res.ok { status := "завершена",
              archiveUrl := some ("http://localhost:" ++ toString cfg.serverPort
                                    ++ "/" ++ az.1) },
     { s with filesCounter := d.2.1, fs := fsd.1, archives := az.2,
              activeTasksCounter := s.activeTasksCounter - 1,
              tasks := (SaveTask s.tasks
                          { task with status := "завершена", archivePath := az.1 }).1 })

/-- `TaskService.GetStatus`: unknown task is `ErrTaskNotFound`; a ledger
below three URLs answers `"в процессе"` and touches nothing; a ledger at
three or more runs the pipeline.  The dispatch looks only at the ledger
length, never at the stored status. -/
def GetStatus (cfg : Config) (net : Network) (s : St) (taskID : Int) :
    Res StatusResult × St :=
  match GetTask s.tasks taskID with
  | Res.err _ => (Res.err Err.taskNotFound, s)
  | Res.ok task =>
    if 3 ≤ (ledgerGet s taskID).length then runPipeline cfg net s taskID task
    else (Res.ok { status := "в процессе", archiveUrl := none }, s)

/-- One external call of the service API. -/
inductive Op
  | create
  | addLinks (taskID : Int) (urls : List String)
  | getStatus (taskID : Int)

/-- The state transition of one call (its answer dropped). -/
def applyOp (cfg : Config) (net : Network) (s : St) : Op → St
  | Op.create => (CreateTask s).2
  | Op.addLinks id urls => (AddLinks s id urls).2
  | Op.getStatus id => (GetStatus cfg net s id).2

/-- Run a call sequence from a given state. -/
def runOpsFrom (cfg : Config) (net : Network) : St → List Op → St
  | s, [] => s
  | s, op :: rest => runOpsFrom cfg net (applyOp cfg net s op) rest

/-- Run a call sequence from the freshly constructed service. -/
def runOps (cfg : Config) (net : Network) (ops : List Op) : St :=
  runOpsFrom cfg net initSt ops

/-- Status of the stored task record, when present. -/
def taskStatus (s : St) (id : Int) : Option String :=
  (mapFind s.tasks id).map Task.status

/-- How a zip reader resolves an entry name: the last entry written under
that name wins. -/
def readEntry (entries : List (String × List Nat)) (name : String) :
    Option (List Nat) :=
  (entries.reverse.find? (fun e => e.1 == name)).map Prod.snd

/-- Well-formedness of the repository map: every stored record carries its
own key as `ID`, and no key exceeds the task counter. -/
def tasksWF (s : St) : Prop :=
  ∀ k t, mapFind s.tasks k = some t → t.id = k ∧ k ≤ s.taskCounter

/-- Concrete configuration of the running example: port 80, ten-byte size
limit, allowed extension list `[jpg]`. -/
def cfgEx : Config :=
  { serverPort := 80, fileMaxSize := 10, fileAllowedExtensions := ["jpg"] }

/-- Network on which every GET succeeds with a one-byte body. -/
def netOk : Network :=
  { head := fun _ => none, get := fun _ => some (1, [42]) }

/-- Network on which every request fails. -/
def netFail : Network :=
  { head := fun _ => none, get := fun _ => none }

/-- Network answering GETs with an unknown content length (`-1`) and an
eleven-byte body, above `cfgEx`'s ten-byte limit. -/
def netBig : Network :=
  { head := fun _ => none, get := fun _ => some (-1, List.replicate 11 7) }

/-- Running example: create one task and submit three jpg links. -/
def opsSetup : List Op := [Op.create, Op.addLinks 1 ["a.jpg", "b.jpg", "c.jpg"]]

/-- State after the setup calls on the all-succeeding network. -/
def sSetup : St := runOps cfgEx netOk opsSetup

/-- State after the setup calls on the all-failing network. -/
def sSetupF : St := runOps cfgEx netFail opsSetup

/-- State after the first status poll completes the task. -/
def sDone : St := (GetStatus cfgEx netOk sSetup 1).2

/-- State after the status poll runs the pipeline with every download
failing: the task is terminally failed. -/
def sFailT : St := (GetStatus cfgEx netFail sSetupF 1).2

/-- Three tasks created, the first one driven to terminal failure. -/
def sBusyF : St :=
  runOps cfgEx netFail
    [Op.create, Op.create, Op.create,
     Op.addLinks 1 ["a.jpg", "b.jpg", "c.jpg"], Op.getStatus 1]

/-- State holding just one freshly created task. -/
def sOne : St := runOps cfgEx netOk [Op.create]

/-- The record `CreateTask` stores for the first task. -/
def task1Rec : Task :=
  { id := 1, status := "создали", urls := [], archivePath := "../archives/Task_01" }

/-- Network whose HEAD responses carry content type `image/jpg`. -/
def netHeadJpg : Network :=
  { head := fun _ => some "image/jpg", get := fun _ => some (1, [42]) }

/-- Network whose HEAD responses carry content type `text/plain`. -/
def netHeadPlain : Network :=
  { head := fun _ => some "text/plain", get := fun _ => some (1, [42]) }

/-- Repository holding just the first created task, for the archive
round-trip example. -/
def tasksOne : TaskMap := [(1, task1Rec)]

/-- Two downloaded files on disk, for the archive round-trip example. -/
def fsTwo : FS := [("../downloads/a.bin", [1]), ("../downloads/b.bin", [2, 3])]

/-- The paths of the two files of `fsTwo`. -/
def filesTwo : List String := ["../downloads/a.bin", "../downloads/b.bin"]

/-! Association-list lemmas. -/

theorem mapFind_upd {κ α : Type} [DecidableEq κ] (m : List (κ × α)) (k : κ) (v : α)
    (q : κ) : mapFind (mapUpd m k v) q = if k = q then some v else mapFind m q := by
  induction m with
  | nil => simp [mapUpd, mapFind]
  | cons e rest ih =>
    obtain ⟨k₁, v₁⟩ := e
    by_cases h1 : k₁ = k
    · subst h1
      by_cases h2 : k₁ = q <;> simp [mapUpd, mapFind, h2]
    · by_cases h2 : k₁ = q
      · subst h2
        have : ¬ k = k₁ := fun h => h1 h.symm
        simp [mapUpd, mapFind, h1, this]
      · simp [mapUpd, mapFind, h1, h2, ih]

theorem mapFind_del {κ α : Type} [DecidableEq κ] (m : List (κ × α)) (k : κ) (q : κ) :
    mapFind (mapDel m k) q = if k = q then none else mapFind m q := by
  induction m with
  | nil => simp [mapDel, mapFind]
  | cons e rest ih =>
    obtain ⟨k₁, v₁⟩ := e
    by_cases h1 : k₁ = k
    · subst h1
      by_cases h2 : k₁ = q
      · subst h2; simp [mapDel, mapFind, ih]
      · simp [mapDel, mapFind, h2, ih]
    · by_cases h2 : k₁ = q
      · subst h2
        have : ¬ k = k₁ := fun h => h1 h.symm
        simp [mapDel, mapFind, h1, this]
      · simp [mapDel, mapFind, h1, h2, ih]

theorem deleteFiles_err (fs : FS) (files : List String) :
    (deleteFiles fs files).2 = none := by
  induction files generalizing fs with
  | nil => rfl
  | cons f rest ih => simpa [deleteFiles] using ih (mapDel fs f)

theorem deleteFiles_none (fs : FS) (files : List String) (f : String)
    (h : mapFind fs f = none) : mapFind (deleteFiles fs files).1 f = none := by
  induction files generalizing fs with
  | nil => simpa [deleteFiles] using h
  | cons g rest ih =>
    have : mapFind (mapDel fs g) f = none := by
      rw [mapFind_del]; split <;> simp [h]
    simpa [deleteFiles] using ih (mapDel fs g) this

theorem deleteFiles_mem (fs : FS) (files : List String) (f : String)
    (h : f ∈ files) : mapFind (deleteFiles fs files).1 f = none := by
  induction files generalizing fs with
  | nil => cases h
  | cons g rest ih =>
    rcases List.mem_cons.mp h with h | h
    · subst h
      exact deleteFiles_none (mapDel fs f) rest f (by rw [mapFind_del]; simp)
    · simpa [deleteFiles] using ih (mapDel fs g) h

/-! Shape lemmas for each service operation, one per control-flow branch
of the source. -/

theorem createTask_busy (s : St) (h : 3 ≤ s.activeTasksCounter) :
    CreateTask s = (Res.err Err.serverBusy, s) := by
  simp [CreateTask, h]

theorem createTask_ok (s : St) (h : ¬ 3 ≤ s.activeTasksCounter) :
    CreateTask s =
      (Res.ok (s.taskCounter + 1),
       { s with activeTasksCounter := s.activeTasksCounter + 1,
                taskCounter := s.taskCounter + 1,
                tasks := mapUpd s.tasks (s.taskCounter + 1)
                  { id := s.taskCounter + 1, status := "создали", urls := [],
                    archivePath := zipPath ++ "/" ++ zipBase (s.taskCounter + 1) },
                urlsByTask := mapUpd s.urlsByTask (s.taskCounter + 1) [] }) := by
  simp [CreateTask, SaveTask, h]

theorem addLinks_notFound (s : St) (id : Int) (urls : List String)
    (h : mapFind s.tasks id = none) :
    AddLinks s id urls = (some Err.taskNotFound, s) := by
  simp [AddLinks, GetTask, h]

theorem addLinks_full (s : St) (id : Int) (urls : List String) (task : Task)
    (h : mapFind s.tasks id = some task) (hl : 3 ≤ (ledgerGet s id).length) :
    AddLinks s id urls = (some Err.tooManyLinks, s) := by
  simp [AddLinks, GetTask, h, hl]

theorem addLinks_over (s : St) (id : Int) (urls : List String) (task : Task)
    (h : mapFind s.tasks id = some task) (hl : ¬ 3 ≤ (ledgerGet s id).length)
    (ho : 3 < (ledgerGet s id).length + urls.length) :
    AddLinks s id urls = (some Err.tooManyLinks, s) := by
  simp [AddLinks, GetTask, h, hl, ho]

theorem addLinks_ok (s : St) (id : Int) (urls : List String) (task : Task)
    (h : mapFind s.tasks id = some task) (hl : ¬ 3 ≤ (ledgerGet s id).length)
    (ho : ¬ 3 < (ledgerGet s id).length + urls.length) :
    AddLinks s id urls =
      (none,
       { s with urlsByTask := mapUpd s.urlsByTask id (ledgerGet s id ++ urls),
                tasks := mapUpd s.tasks task.id { task with status := "в процессе" } }) := by
  simp [AddLinks, GetTask, SaveTask, h, hl, ho]

theorem getStatus_notFound (cfg : Config) (net : Network) (s : St) (id : Int)
    (h : mapFind s.tasks id = none) :
    GetStatus cfg net s id = (Res.err Err.taskNotFound, s) := by
  simp [GetStatus, GetTask, h]

theorem getStatus_poll (cfg : Config) (net : Network) (s : St) (id : Int)
    (task : Task) (h : mapFind s.tasks id = some task)
    (hl : ¬ 3 ≤ (ledgerGet s id).length) :
    GetStatus cfg net s id =
      (Res.ok { status := "в процессе", archiveUrl := none }, s) := by
  simp [GetStatus, GetTask, h, hl]

theorem getStatus_pipe (cfg : Config) (net : Network) (s : St) (id : Int)
    (task : Task) (h : mapFind s.tasks id = some task)
    (hl : 3 ≤ (ledgerGet s id).length) :
    GetStatus cfg net s id = runPipeline cfg net s id task := by
  simp [GetStatus, GetTask, h, hl]

theorem runPipeline_fail (cfg : Config) (net : Network) (s : St) (id : Int)
    (task : Task)
    (hd : (downloadAll cfg net id (ledgerGet s id) s.filesCounter s.fs).1 = []) :
    runPipeline cfg net s id task =
      (Res.ok { status := "failed", archiveUrl := none },
       { s with
           filesCounter := (downloadAll cfg net id (ledgerGet s id) s.filesCounter s.fs).2.1,
           fs := (downloadAll cfg net id (ledgerGet s id) s.filesCounter s.fs).2.2,
           tasks := mapUpd s.tasks task.id { task with status := "неуспешно" } }) := by
  simp [runPipeline, SaveTask, hd]

theorem runPipeline_done_active (cfg : Config) (net : Network) (s : St) (id : Int)
    (task : Task)
    (hd : (downloadAll cfg net id (ledgerGet s id) s.filesCounter s.fs).1 ≠ []) :
    (runPipeline cfg net s id task).2.activeTasksCounter =
      s.activeTasksCounter - 1 := by
  simp [runPipeline, SaveTask, hd]

theorem runPipeline_done_tasks (cfg : Config) (net : Network) (s : St) (id : Int)
    (task : Task)
    (hd : (downloadAll cfg net id (ledgerGet s id) s.filesCounter s.fs).1 ≠ []) :
    (runPipeline cfg net s id task).2.tasks =
      mapUpd s.tasks task.id
        { task with
            status := "завершена",
            archivePath := (createZipArchive s.tasks
              (downloadAll cfg net id (ledgerGet s id) s.filesCounter s.fs).2.2
              s.archives id
              (downloadAll cfg net id (ledgerGet s id) s.filesCounter s.fs).1).1 } := by
  simp [runPipeline, SaveTask, hd]

theorem runPipeline_taskCounter (cfg : Config) (net : Network) (s : St) (id : Int)
    (task : Task) :
    (runPipeline cfg net s id task).2.taskCounter = s.taskCounter := by
  unfold runPipeline
  by_cases hd : (downloadAll cfg net id (ledgerGet s id) s.filesCounter s.fs).1.isEmpty <;>
    simp [hd]

/-! Per-call facts about the active-task counter and the repository
well-formedness, then both carried along arbitrary call sequences. -/

theorem addLinks_active (s : St) (id : Int) (urls : List String) :
    (AddLinks s id urls).2.activeTasksCounter = s.activeTasksCounter := by
  cases h : mapFind s.tasks id with
  | none => rw [addLinks_notFound s id urls h]
  | some task =>
    by_cases hl : 3 ≤ (ledgerGet s id).length
    · rw [addLinks_full s id urls task h hl]
    · by_cases ho : 3 < (ledgerGet s id).length + urls.length
      · rw [addLinks_over s id urls task h hl ho]
      · rw [addLinks_ok s id urls task h hl ho]

theorem getStatus_active (cfg : Config) (net : Network) (s : St) (id : Int) :
    (GetStatus cfg net s id).2.activeTasksCounter = s.activeTasksCounter ∨
    (GetStatus cfg net s id).2.activeTasksCounter = s.activeTasksCounter - 1 := by
  cases h : mapFind s.tasks id with
  | none => left; rw [getStatus_notFound cfg net s id h]
  | some task =>
    by_cases hl : 3 ≤ (ledgerGet s id).length
    · rw [getStatus_pipe cfg net s id task h hl]
      by_cases hd : (downloadAll cfg net id (ledgerGet s id) s.filesCounter s.fs).1 = []
      · left; rw [runPipeline_fail cfg net s id task hd]
      · right; exact runPipeline_done_active cfg net s id task hd
    · left; rw [getStatus_poll cfg net s id task h hl]

theorem createTask_active_le (s : St) (h : s.activeTasksCounter ≤ 3) :
    (CreateTask s).2.activeTasksCounter ≤ 3 := by
  by_cases hb : 3 ≤ s.activeTasksCounter
  · rw [createTask_busy s hb]; exact h
  · rw [createTask_ok s hb]; simp; omega

theorem runOpsFrom_active_le (cfg : Config) (net : Network) (ops : List Op) :
    ∀ s : St, s.activeTasksCounter ≤ 3 →
      (runOpsFrom cfg net s ops).activeTasksCounter ≤ 3 := by
  induction ops with
  | nil => intro s h; exact h
  | cons op rest ih =>
    intro s h
    refine ih _ ?_
    cases op with
    | create => exact createTask_active_le s h
    | addLinks id urls =>
        simpa [applyOp, addLinks_active] using h
    | getStatus id =>
        rcases getStatus_active cfg net s id with h2 | h2 <;>
          simp only [applyOp, h2] <;> omega

theorem runOps_active_le (cfg : Config) (net : Network) (ops : List Op) :
    (runOps cfg net ops).activeTasksCounter ≤ 3 :=
  runOpsFrom_active_le cfg net ops initSt (by norm_num [initSt])

theorem tasksWF_create (s : St) (h : tasksWF s) : tasksWF (CreateTask s).2 := by
  by_cases hb : 3 ≤ s.activeTasksCounter
  · rw [createTask_busy s hb]; exact h
  · rw [createTask_ok s hb]
    intro k t hf
    simp only [] at hf ⊢
    rw [mapFind_upd] at hf
    by_cases hk : s.taskCounter + 1 = k
    · rw [if_pos hk] at hf
      injection hf with hf
      subst hf
      exact ⟨hk, by omega⟩
    · rw [if_neg hk] at hf
      obtain ⟨h1, h2⟩ := h k t hf
      exact ⟨h1, by omega⟩

theorem tasksWF_addLinks (s : St) (id : Int) (urls : List String) (h : tasksWF s) :
    tasksWF (AddLinks s id urls).2 := by
  cases hg : mapFind s.tasks id with
  | none => rw [addLinks_notFound s id urls hg]; exact h
  | some task =>
    obtain ⟨hid, hle⟩ := h id task hg
    by_cases hl : 3 ≤ (ledgerGet s id).length
    · rw [addLinks_full s id urls task hg hl]; exact h
    · by_cases ho : 3 < (ledgerGet s id).length + urls.length
      · rw [addLinks_over s id urls task hg hl ho]; exact h
      · rw [addLinks_ok s id urls task hg hl ho]
        intro k t hf
        simp only [] at hf ⊢
        rw [mapFind_upd] at hf
        by_cases hk : task.id = k
        · rw [if_pos hk] at hf
          injection hf with hf
          subst hf
          refine ⟨hk, ?_⟩
          rw [← hk, hid]; exact hle
        · rw [if_neg hk] at hf
          exact h k t hf

theorem tasksWF_getStatus (cfg : Config) (net : Network) (s : St) (id : Int)
    (h : tasksWF s) : tasksWF (GetStatus cfg net s id).2 := by
  cases hg : mapFind s.tasks id with
  | none => rw [getStatus_notFound cfg net s id hg]; exact h
  | some task =>
    obtain ⟨hid, hle⟩ := h id task hg
    by_cases hl : 3 ≤ (ledgerGet s id).length
    · rw [getStatus_pipe cfg net s id task hg hl]
      have htc := runPipeline_taskCounter cfg net s id task
      by_cases hd : (downloadAll cfg net id (ledgerGet s id) s.filesCounter s.fs).1 = []
      · rw [runPipeline_fail cfg net s id task hd]
        intro k t hf
        simp only [] at hf ⊢
        rw [mapFind_upd] at hf
        by_cases hk : task.id = k
        · rw [if_pos hk] at hf
          injection hf with hf
          subst hf
          exact ⟨hk, by rw [← hk, hid]; exact hle⟩
        · rw [if_neg hk] at hf
          exact h k t hf
      · have hts := runPipeline_done_tasks cfg net s id task hd
        intro k t hf
        rw [hts, mapFind_upd] at hf
        rw [htc]
        by_cases hk : task.id = k
        · rw [if_pos hk] at hf
          injection hf with hf
          subst hf
          exact ⟨hk, by rw [← hk, hid]; exact hle⟩
        · rw [if_neg hk] at hf
          exact h k t hf
    · rw [getStatus_poll cfg net s id task hg hl]; exact h

theorem runOpsFrom_wf (cfg : Config) (net : Network) (ops : List Op) :
    ∀ s : St, tasksWF s → tasksWF (runOpsFrom cfg net s ops) := by
  induction ops with
  | nil => intro s h; exact h
  | cons op rest ih =>
    intro s h
    refine ih _ ?_
    cases op with
    | create => exact tasksWF_create s h
    | addLinks id urls => exact tasksWF_addLinks s id urls h
    | getStatus id => exact tasksWF_getStatus cfg net s id h

theorem runOps_wf (cfg : Config) (net : Network) (ops : List Op) :
    tasksWF (runOps cfg net ops) := by
  refine runOpsFrom_wf cfg net ops initSt ?_
  intro k t hf
  simp [initSt, mapFind] at hf

/-! Lemmas about the download validation and the archive entry list. -/

theorem doGet_ne_invalid (cfg : Config) (net : Network) (fsc : Int) (fs : FS)
    (url : String) (id : Int) (ext : String) :
    (doGet cfg net fsc fs url id ext).1 ≠ Res.err Err.invalidFile := by
  unfold doGet
  cases hg : net.get url with
  | none => simp
  | some p =>
    obtain ⟨cl, body⟩ := p
    by_cases h : cfg.fileMaxSize < cl <;> simp [h]

theorem doGet_tooLarge (cfg : Config) (net : Network) (fsc : Int) (fs : FS)
    (url : String) (id : Int) (ext : String) (cl : Int) (body : List Nat)
    (hg : net.get url = some (cl, body)) (hlt : cfg.fileMaxSize < cl) :
    doGet cfg net fsc fs url id ext = (Res.err Err.fileTooLarge, fsc, fs) := by
  simp [doGet, hg, hlt]

theorem doGet_write (cfg : Config) (net : Network) (fsc : Int) (fs : FS)
    (url : String) (id : Int) (ext : String) (cl : Int) (body : List Nat)
    (hg : net.get url = some (cl, body)) (hle : ¬ cfg.fileMaxSize < cl) :
    doGet cfg net fsc fs url id ext =
      (Res.ok (folderPathImg ++ "/" ++ prefName id (fsc + 1) ++ ext), fsc + 1,
       mapUpd fs (folderPathImg ++ "/" ++ prefName id (fsc + 1) ++ ext) body) := by
  simp [doGet, hg, hle]

theorem entriesOf_length (fs : FS) (files : List String)
    (h : ∀ f ∈ files, (mapFind fs f).isSome) :
    (entriesOf fs files).length = files.length := by
  induction files with
  | nil => rfl
  | cons f rest ih =>
    obtain ⟨b, hb⟩ := Option.isSome_iff_exists.mp (h f (List.mem_cons_self f rest))
    have ih' := ih (fun g hg => h g (List.mem_cons_of_mem f hg))
    simp [entriesOf, hb] at ih' ⊢
    exact ih'

theorem entriesOf_keys (fs : FS) (files : List String)
    (h : ∀ f ∈ files, (mapFind fs f).isSome) :
    (entriesOf fs files).map Prod.fst = files.map filepathBase := by
  induction files with
  | nil => rfl
  | cons f rest ih =>
    obtain ⟨b, hb⟩ := Option.isSome_iff_exists.mp (h f (List.mem_cons_self f rest))
    have ih' := ih (fun g hg => h g (List.mem_cons_of_mem f hg))
    simp [entriesOf, hb] at ih' ⊢
    exact ih'

theorem entriesOf_mem (fs : FS) (files : List String) (f : String) (b : List Nat)
    (hf : f ∈ files) (hb : mapFind fs f = some b) :
    (filepathBase f, b) ∈ entriesOf fs files := by
  simp only [entriesOf, List.mem_filterMap]
  exact ⟨f, hf, by simp [hb]⟩

theorem find_key_eq {κ α : Type} [DecidableEq κ] (es : List (κ × α)) (n : κ) (b : α)
    (h : (es.map Prod.fst).Nodup) (hm : (n, b) ∈ es) :
    es.find? (fun e => e.1 == n) = some (n, b) := by
  induction es with
  | nil => cases hm
  | cons e rest ih =>
    rcases List.mem_cons.mp hm with he | hm'
    · subst he
      simp [List.find?]
    · have hne : ¬ e.1 = n := by
        intro heq
        have hn : n ∈ rest.map Prod.fst := List.mem_map_of_mem Prod.fst hm'
        rw [← heq] at hn
        exact (List.nodup_cons.mp h).1 hn
      rw [List.find?_cons_of_neg _ (by simp [hne])]
      exact ih (List.nodup_cons.mp h).2 hm'

theorem readEntry_eq (entries : List (String × List Nat)) (n : String) (b : List Nat)
    (h : (entries.map Prod.fst).Nodup) (hm : (n, b) ∈ entries) :
    readEntry entries n = some b := by
  unfold readEntry
  rw [find_key_eq entries.reverse n b ?_ ?_]
  · rfl
  · rw [List.map_reverse]
    exact List.nodup_reverse.mpr h
  · exact List.mem_reverse.mpr hm

theorem downloadFile_ext_allowed (cfg : Config) (net : Network) (fsc : Int)
    (fs : FS) (url : String) (id : Int)
    (hext : extAllowed cfg (goToLower (filepathExt url)) = true) :
    downloadFile cfg net fsc fs url id =
      doGet cfg net fsc fs url id (goToLower (filepathExt url)) := by
  simp [downloadFile, hext]

/-! The claims. -/

/-- C1, counterexample: the active-task counter is NOT decremented when a
task reaches terminal failure.  Driving one task to `"неуспешно"` (all
three downloads fail) leaves the counter at 1, and with three tasks
created and the first driven to terminal failure the counter stays at 3,
so a further creation still fails with `ServerBusy` even though a task
has reached a terminal state. -/
theorem C1_cex :
    taskStatus sFailT 1 = some "неуспешно" ∧
    sFailT.activeTasksCounter = 1 ∧
    taskStatus sBusyF 1 = some "неуспешно" ∧
    sBusyF.activeTasksCounter = 3 ∧
    (CreateTask sBusyF).1 = Res.err Err.serverBusy := by
  decide

/-- C1, amended: the counter is at most 3 in every reachable state;
creation at a counter of 3 or more fails with `ServerBusy` and otherwise
increments the counter; the counter is decremented only by a pipeline run
in which at least one download succeeds — a pipeline run in which every
download fails (terminal failure) leaves the counter unchanged, so that
capacity is never restored. -/
theorem C1_fixed :
    (∀ cfg net ops, (runOps cfg net ops).activeTasksCounter ≤ 3) ∧
    (∀ s : St, 3 ≤ s.activeTasksCounter →
       CreateTask s = (Res.err Err.serverBusy, s)) ∧
    (∀ s : St, s.activeTasksCounter < 3 →
       (CreateTask s).1 = Res.ok (s.taskCounter + 1) ∧
       (CreateTask s).2.activeTasksCounter = s.activeTasksCounter + 1) ∧
    (∀ cfg net s id task, mapFind s.tasks id = some task →
       3 ≤ (ledgerGet s id).length →
       (downloadAll cfg net id (ledgerGet s id) s.filesCounter s.fs).1 = [] →
       (GetStatus cfg net s id).2.activeTasksCounter = s.activeTasksCounter) ∧
    (∀ cfg net s id task, mapFind s.tasks id = some task →
       3 ≤ (ledgerGet s id).length →
       (downloadAll cfg net id (ledgerGet s id) s.filesCounter s.fs).1 ≠ [] →
       (GetStatus cfg net s id).2.activeTasksCounter = s.activeTasksCounter - 1) := by
  refine ⟨fun cfg net ops => runOps_active_le cfg net ops,
          fun s h => createTask_busy s h, ?_, ?_, ?_⟩
  · intro s h
    rw [createTask_ok s (not_le.mpr h)]
    exact ⟨rfl, rfl⟩
  · intro cfg net s id task hg hl hd
    rw [getStatus_pipe cfg net s id task hg hl, runPipeline_fail cfg net s id task hd]
  · intro cfg net s id task hg hl hd
    rw [getStatus_pipe cfg net s id task hg hl]
    exact runPipeline_done_active cfg net s id task hd

/-- C1, witness for the amended theorem at concrete inputs: a state with
three active tasks rejects creation; the all-fail pipeline leaves the
counter unchanged; the successful pipeline decrements it. -/
theorem C1_fixed_witness :
    (3 ≤ sBusyF.activeTasksCounter ∧
     CreateTask sBusyF = (Res.err Err.serverBusy, sBusyF)) ∧
    (GetStatus cfgEx netFail sSetupF 1).2.activeTasksCounter =
      sSetupF.activeTasksCounter ∧
    (GetStatus cfgEx netOk sSetup 1).2.activeTasksCounter =
      sSetup.activeTasksCounter - 1 := by
  refine ⟨⟨by decide, C1_fixed.2.1 sBusyF (by decide)⟩, ?_, ?_⟩
  · exact C1_fixed.2.2.2.1 cfgEx netFail sSetupF 1
      { id := 1, status := "в процессе", urls := [], archivePath := "../archives/Task_01" }
      (by decide) (by decide) (by decide)
  · exact C1_fixed.2.2.2.2 cfgEx netOk sSetup 1
      { id := 1, status := "в процессе", urls := [], archivePath := "../archives/Task_01" }
      (by decide) (by decide) (by decide)

/-- C2, counterexample: after the first status poll completes the task
(stored status `"завершена"`, a terminal state), a second `getStatus`
call re-runs the pipeline: the global file counter advances from 3 to 6
(three new downloads) and the active counter is decremented again, to
-1. -/
theorem C2_cex :
    taskStatus sDone 1 = some "завершена" ∧
    sDone.filesCounter = 3 ∧
    (GetStatus cfgEx netOk sDone 1).2.filesCounter = 6 ∧
    (GetStatus cfgEx netOk sDone 1).2.activeTasksCounter = -1 := by
  decide

/-- C2, amended: `getStatus` dispatches only on the ledger length, so a
poll on a completed task with a full ledger re-executes the whole
pipeline.  In the concrete scenario the second poll returns the same
result map as the first, but it downloads three more files, decrements
the active counter to -1, and writes a fresh archive under the doubled
name `archives/Task_01.zip.zip` (completion overwrote the stored
`ArchivePath` with the public path) containing the re-downloaded
entries. -/
theorem C2_fixed :
    taskStatus sDone 1 = some "завершена" ∧
    (GetStatus cfgEx netOk sDone 1).1 =
      Res.ok { status := "завершена",
               archiveUrl := some "http://localhost:80/archives/Task_01.zip" } ∧
    (GetStatus cfgEx netOk sSetup 1).1 = (GetStatus cfgEx netOk sDone 1).1 ∧
    (GetStatus cfgEx netOk sDone 1).2.filesCounter = 6 ∧
    (GetStatus cfgEx netOk sDone 1).2.activeTasksCounter = -1 ∧
    mapFind (GetStatus cfgEx netOk sDone 1).2.archives "archives/Task_01.zip.zip" =
      some [("Task_01_4.jpg", [42]), ("Task_01_5.jpg", [42]), ("Task_01_6.jpg", [42])] := by
  decide

/-- C3, counterexample: the task stored by `createTask` carries a
non-empty `ArchivePath` from the moment of creation (status is still the
created state), contradicting "ArchivePath is empty until completion". -/
theorem C3_cex :
    mapFind (CreateTask initSt).2.tasks 1 =
      some { id := 1, status := "создали", urls := [],
             archivePath := "../archives/Task_01" } ∧
    ("../archives/Task_01" : String) ≠ "" := by
  decide

/-- C3, amended: createTask fails with `ServerBusy` exactly when the
active counter is at the cap; otherwise it allocates the next task ID
(strictly greater than every stored ID, by the reachable-state invariant
`tasksWF`), stores a task with the created status whose `ArchivePath` is
already set to `"../archives/" ++ Task_NN` (zero-padded to two digits),
initializes an empty ledger entry and increments the counter. -/
theorem C3_fixed :
    (∀ s : St, 3 ≤ s.activeTasksCounter →
       CreateTask s = (Res.err Err.serverBusy, s)) ∧
    (∀ s : St, ¬ 3 ≤ s.activeTasksCounter →
       (CreateTask s).1 = Res.ok (s.taskCounter + 1) ∧
       mapFind (CreateTask s).2.tasks (s.taskCounter + 1) =
         some { id := s.taskCounter + 1, status := "создали", urls := [],
                archivePath := zipPath ++ "/" ++ zipBase (s.taskCounter + 1) } ∧
       mapFind (CreateTask s).2.urlsByTask (s.taskCounter + 1) = some [] ∧
       (CreateTask s).2.activeTasksCounter = s.activeTasksCounter + 1 ∧
       (CreateTask s).2.taskCounter = s.taskCounter + 1 ∧
       (tasksWF s → ∀ k, (mapFind s.tasks k).isSome → k < s.taskCounter + 1)) ∧
    (∀ cfg net ops, tasksWF (runOps cfg net ops)) ∧
    zipBase 1 = "Task_01" ∧ zipBase 9 = "Task_09" ∧ zipBase 10 = "Task_10" := by
  refine ⟨fun s h => createTask_busy s h, ?_,
          fun cfg net ops => runOps_wf cfg net ops, by decide, by decide, by decide⟩
  intro s h
  rw [createTask_ok s h]
  refine ⟨rfl, ?_, ?_, rfl, rfl, ?_⟩
  · simp only []
    rw [mapFind_upd, if_pos rfl]
  · simp only []
    rw [mapFind_upd, if_pos rfl]
  · intro hwf k hk
    obtain ⟨t, ht⟩ := Option.isSome_iff_exists.mp hk
    have := (hwf k t ht).2
    omega

/-- C3, witness for the amended theorem: creation from the fresh service
state allocates ID 1 and stores the described record. -/
theorem C3_fixed_witness :
    (CreateTask initSt).1 = Res.ok (initSt.taskCounter + 1) ∧
    mapFind (CreateTask initSt).2.tasks (initSt.taskCounter + 1) =
      some { id := initSt.taskCounter + 1, status := "создали", urls := [],
             archivePath := zipPath ++ "/" ++ zipBase (initSt.taskCounter + 1) } ∧
    mapFind (CreateTask initSt).2.urlsByTask (initSt.taskCounter + 1) = some [] ∧
    (CreateTask initSt).2.activeTasksCounter = initSt.activeTasksCounter + 1 ∧
    (CreateTask initSt).2.taskCounter = initSt.taskCounter + 1 ∧
    (tasksWF initSt → ∀ k, (mapFind initSt.tasks k).isSome →
       k < initSt.taskCounter + 1) :=
  C3_fixed.2.1 initSt (by decide)

/-- C4: `addLinks` fails with `TaskNotFound` on an unknown ID, fails with
`TooManyLinks` when the ledger already holds 3 entries or when the new
URLs would push it past 3 — leaving the whole state unchanged in every
failure — and on success appends the URLs in order, saves the task back
with the in-progress status, and touches no counter, file or archive. -/
theorem C4_addLinks :
    (∀ s id urls, mapFind s.tasks id = none →
       AddLinks s id urls = (some Err.taskNotFound, s)) ∧
    (∀ s id urls task, mapFind s.tasks id = some task →
       3 ≤ (ledgerGet s id).length →
       AddLinks s id urls = (some Err.tooManyLinks, s)) ∧
    (∀ s id urls task, mapFind s.tasks id = some task →
       ¬ 3 ≤ (ledgerGet s id).length →
       3 < (ledgerGet s id).length + urls.length →
       AddLinks s id urls = (some Err.tooManyLinks, s)) ∧
    (∀ s id urls task, mapFind s.tasks id = some task →
       ¬ 3 ≤ (ledgerGet s id).length →
       ¬ 3 < (ledgerGet s id).length + urls.length →
       (AddLinks s id urls).1 = none ∧
       ledgerGet (AddLinks s id urls).2 id = ledgerGet s id ++ urls ∧
       mapFind (AddLinks s id urls).2.tasks task.id =
         some { task with status := "в процессе" } ∧
       (AddLinks s id urls).2.activeTasksCounter = s.activeTasksCounter ∧
       (AddLinks s id urls).2.filesCounter = s.filesCounter ∧
       (AddLinks s id urls).2.fs = s.fs ∧
       (AddLinks s id urls).2.archives = s.archives) := by
  refine ⟨fun s id urls h => addLinks_notFound s id urls h,
          fun s id urls task h hl => addLinks_full s id urls task h hl,
          fun s id urls task h hl ho => addLinks_over s id urls task h hl ho, ?_⟩
  intro s id urls task h hl ho
  rw [addLinks_ok s id urls task h hl ho]
  refine ⟨rfl, ?_, ?_, rfl, rfl, rfl, rfl⟩
  · simp only [ledgerGet]
    rw [mapFind_upd, if_pos rfl]
    rfl
  · simp only []
    rw [mapFind_upd, if_pos rfl]

/-- C4, witness: on a fresh task, submitting four links at once fails
with `TooManyLinks` and changes nothing, and submitting one link succeeds
and appends it. -/
theorem C4_addLinks_witness :
    AddLinks sOne 1 ["a", "b", "c", "d"] = (some Err.tooManyLinks, sOne) ∧
    ((AddLinks sOne 1 ["a"]).1 = none ∧
     ledgerGet (AddLinks sOne 1 ["a"]).2 1 = ledgerGet sOne 1 ++ ["a"] ∧
     mapFind (AddLinks sOne 1 ["a"]).2.tasks task1Rec.id =
       some { task1Rec with status := "в процессе" } ∧
     (AddLinks sOne 1 ["a"]).2.activeTasksCounter = sOne.activeTasksCounter ∧
     (AddLinks sOne 1 ["a"]).2.filesCounter = sOne.filesCounter ∧
     (AddLinks sOne 1 ["a"]).2.fs = sOne.fs ∧
     (AddLinks sOne 1 ["a"]).2.archives = sOne.archives) := by
  constructor
  · exact C4_addLinks.2.2.1 sOne 1 ["a", "b", "c", "d"] task1Rec
      (by decide) (by decide) (by decide)
  · exact C4_addLinks.2.2.2 sOne 1 ["a"] task1Rec
      (by decide) (by decide) (by decide)

/-- C5: polling an existing task whose ledger holds fewer than 3 URLs
answers the in-progress status and returns the state completely
unchanged: registry, ledger, counters, filesystem and archives are
exactly as before the call. -/
theorem C5_poll (cfg : Config) (net : Network) (s : St) (id : Int) (task : Task)
    (h : mapFind s.tasks id = some task) (hl : (ledgerGet s id).length < 3) :
    GetStatus cfg net s id =
      (Res.ok { status := "в процессе", archiveUrl := none }, s) :=
  getStatus_poll cfg net s id task h (not_le.mpr hl)

/-- C5, witness: polling the freshly created task (empty ledger) is pure. -/
theorem C5_poll_witness :
    GetStatus cfgEx netOk sOne 1 =
      (Res.ok { status := "в процессе", archiveUrl := none }, sOne) :=
  C5_poll cfgEx netOk sOne 1 task1Rec (by decide) (by decide)

/-- C6, counterexample: on the all-downloads-fail pipeline the stored
status becomes `"неуспешно"` while the returned status string is
`"failed"` — the returned failure string does NOT equal the stored status
value. -/
theorem C6_cex :
    (GetStatus cfgEx netFail sSetupF 1).1 =
      Res.ok { status := "failed", archiveUrl := none } ∧
    taskStatus (GetStatus cfgEx netFail sSetupF 1).2 1 = some "неуспешно" ∧
    ("failed" : String) ≠ "неуспешно" ∧
    (GetStatus cfgEx netFail sSetupF 1).2.archives = sSetupF.archives := by
  decide

/-- C6, amended: when the pipeline runs and zero downloads succeed,
`getStatus` stores status `"неуспешно"`, returns `{status: "failed"}`,
creates no archive — and the returned failure string differs from the
stored status value. -/
theorem C6_fixed (cfg : Config) (net : Network) (s : St) (id : Int) (task : Task)
    (hg : mapFind s.tasks id = some task)
    (hl : 3 ≤ (ledgerGet s id).length)
    (hd : (downloadAll cfg net id (ledgerGet s id) s.filesCounter s.fs).1 = []) :
    (GetStatus cfg net s id).1 = Res.ok { status := "failed", archiveUrl := none } ∧
    mapFind (GetStatus cfg net s id).2.tasks task.id =
      some { task with status := "неуспешно" } ∧
    (GetStatus cfg net s id).2.archives = s.archives ∧
    ("failed" : String) ≠ "неуспешно" := by
  rw [getStatus_pipe cfg net s id task hg hl, runPipeline_fail cfg net s id task hd]
  refine ⟨rfl, ?_, rfl, by decide⟩
  simp only []
  rw [mapFind_upd, if_pos rfl]

/-- C6, witness for the amended theorem on the concrete all-fail run. -/
theorem C6_fixed_witness :
    (GetStatus cfgEx netFail sSetupF 1).1 =
      Res.ok { status := "failed", archiveUrl := none } ∧
    mapFind (GetStatus cfgEx netFail sSetupF 1).2.tasks
      (Task.id { id := 1, status := "в процессе", urls := [],
                 archivePath := "../archives/Task_01" }) =
      some { id := 1, status := "неуспешно", urls := [],
             archivePath := "../archives/Task_01" } ∧
    (GetStatus cfgEx netFail sSetupF 1).2.archives = sSetupF.archives ∧
    ("failed" : String) ≠ "неуспешно" :=
  C6_fixed cfgEx netFail sSetupF 1
    { id := 1, status := "в процессе", urls := [], archivePath := "../archives/Task_01" }
    (by decide) (by decide) (by decide)

/-- C7: a URL whose lower-cased path extension is in the allow-list is
accepted with no HEAD request (the result does not depend on the HEAD
oracle at all, and is never `InvalidFile`); otherwise a HEAD request is
made and the URL is accepted when some allowed extension name occurs as a
substring of the content-type header; when neither check passes the
download fails with `InvalidFile`. -/
theorem C7_validation :
    (∀ cfg net h2 fsc fs url id,
       extAllowed cfg (goToLower (filepathExt url)) = true →
       downloadFile cfg net fsc fs url id =
         downloadFile cfg { net with head := h2 } fsc fs url id ∧
       (downloadFile cfg net fsc fs url id).1 ≠ Res.err Err.invalidFile) ∧
    (∀ cfg net fsc fs url id ct,
       extAllowed cfg (goToLower (filepathExt url)) = false →
       net.head url = some ct →
       (∃ a ∈ cfg.fileAllowedExtensions, goContains ct a = true) →
       (downloadFile cfg net fsc fs url id).1 ≠ Res.err Err.invalidFile) ∧
    (∀ cfg net fsc fs url id ct,
       extAllowed cfg (goToLower (filepathExt url)) = false →
       net.head url = some ct →
       (∀ a ∈ cfg.fileAllowedExtensions, goContains ct a = false) →
       downloadFile cfg net fsc fs url id = (Res.err Err.invalidFile, fsc, fs)) := by
  refine ⟨?_, ?_, ?_⟩
  · intro cfg net h2 fsc fs url id hext
    constructor
    · rw [downloadFile_ext_allowed cfg net fsc fs url id hext,
          downloadFile_ext_allowed cfg { net with head := h2 } fsc fs url id hext]
      rfl
    · rw [downloadFile_ext_allowed cfg net fsc fs url id hext]
      exact doGet_ne_invalid cfg net fsc fs url id _
  · intro cfg net fsc fs url id ct hext hh hex
    obtain ⟨a, ha, hc⟩ := hex
    have hs : (cfg.fileAllowedExtensions.find? (fun x => goContains ct x)).isSome :=
      List.find?_isSome.mpr ⟨a, ha, hc⟩
    obtain ⟨a', ha'⟩ := Option.isSome_iff_exists.mp hs
    simp only [downloadFile, hext, Bool.false_eq_true, if_false, hh, ha']
    exact doGet_ne_invalid cfg net fsc fs url id _
  · intro cfg net fsc fs url id ct hext hh hall
    have hf : cfg.fileAllowedExtensions.find? (fun x => goContains ct x) = none :=
      List.find?_eq_none.mpr (by intro x hx; simp [hall x hx])
    simp [downloadFile, hext, hh, hf]

/-- C7, witness: with allow-list `[jpg]`, `a.jpg` is accepted identically
under two different HEAD oracles; `a.txt` with HEAD content type
`image/jpg` is accepted; `a.txt` with `text/plain` is rejected with
`InvalidFile`. -/
theorem C7_validation_witness :
    (downloadFile cfgEx netOk 0 [] "a.jpg" 1 =
       downloadFile cfgEx { netOk with head := fun _ => some "zzz" } 0 [] "a.jpg" 1 ∧
     (downloadFile cfgEx netOk 0 [] "a.jpg" 1).1 ≠ Res.err Err.invalidFile) ∧
    (downloadFile cfgEx netHeadJpg 0 [] "a.txt" 1).1 ≠ Res.err Err.invalidFile ∧
    downloadFile cfgEx netHeadPlain 0 [] "a.txt" 1 = (Res.err Err.invalidFile, 0, []) := by
  refine ⟨C7_validation.1 cfgEx netOk (fun _ => some "zzz") 0 [] "a.jpg" 1 (by decide),
          C7_validation.2.1 cfgEx netHeadJpg 0 [] "a.txt" 1 "image/jpg"
            (by decide) rfl ⟨"jpg", by decide, by decide⟩,
          C7_validation.2.2 cfgEx netHeadPlain 0 [] "a.txt" 1 "text/plain"
            (by decide) rfl (by decide)⟩

/-- C8, counterexample: a GET response with unknown content length (Go
reports `-1`) and an 11-byte body passes the declared-length check
against the 10-byte limit, and the body is persisted in full — a file
larger than the configured maximum is persisted, so no mid-stream
enforcement exists. -/
theorem C8_cex :
    (downloadFile cfgEx netBig 0 [] "a.jpg" 1).1 =
      Res.ok "../downloads/Task_01_1.jpg" ∧
    mapFind (downloadFile cfgEx netBig 0 [] "a.jpg" 1).2.2
      "../downloads/Task_01_1.jpg" = some (List.replicate 11 7) ∧
    (List.replicate 11 (7 : Nat)).length = 11 ∧
    cfgEx.fileMaxSize = 10 := by
  decide

/-- C8, amended: only the declared content length is checked — a declared
length above the maximum fails with `FileTooLarge`, and any other
declared length (including the unknown marker `-1`) lets the download
proceed, after which the whole body is written regardless of its actual
size; nothing truncates or aborts the write mid-stream. -/
theorem C8_fixed (cfg : Config) (net : Network) (fsc : Int) (fs : FS)
    (url : String) (id : Int) (cl : Int) (body : List Nat)
    (hext : extAllowed cfg (goToLower (filepathExt url)) = true)
    (hg : net.get url = some (cl, body)) :
    (cfg.fileMaxSize < cl →
       downloadFile cfg net fsc fs url id = (Res.err Err.fileTooLarge, fsc, fs)) ∧
    (¬ cfg.fileMaxSize < cl →
       downloadFile cfg net fsc fs url id =
         (Res.ok (folderPathImg ++ "/" ++ prefName id (fsc + 1) ++
            goToLower (filepathExt url)),
          fsc + 1,
          mapUpd fs (folderPathImg ++ "/" ++ prefName id (fsc + 1) ++
            goToLower (filepathExt url)) body)) := by
  constructor
  · intro hlt
    rw [downloadFile_ext_allowed cfg net fsc fs url id hext]
    exact doGet_tooLarge cfg net fsc fs url id _ cl body hg hlt
  · intro hle
    rw [downloadFile_ext_allowed cfg net fsc fs url id hext]
    exact doGet_write cfg net fsc fs url id _ cl body hg hle

/-- C8, witness for the amended theorem: the unknown-length 11-byte body
is written in full past the 10-byte limit. -/
theorem C8_fixed_witness :
    downloadFile cfgEx netBig 0 [] "a.jpg" 1 =
      (Res.ok (folderPathImg ++ "/" ++ prefName 1 (0 + 1) ++
         goToLower (filepathExt "a.jpg")),
       0 + 1,
       mapUpd [] (folderPathImg ++ "/" ++ prefName 1 (0 + 1) ++
         goToLower (filepathExt "a.jpg")) (List.replicate 11 7)) :=
  (C8_fixed cfgEx netBig 0 [] "a.jpg" 1 (-1) (List.replicate 11 7)
    (by decide) rfl).2 (by decide)

/-- C9: archiving N files that all exist on disk (with pairwise distinct
base names, as the generated download names always are) stores under the
archive key exactly the N entries in order, each readable back with its
original byte content; afterwards `deleteFiles` removes every input file
from the filesystem and never produces an error to propagate. -/
theorem C9_archive_roundtrip (tasks : TaskMap) (fs : FS) (archives : Archives)
    (id : Int) (files : List String)
    (hAll : ∀ f ∈ files, (mapFind fs f).isSome)
    (hNd : (files.map filepathBase).Nodup) :
    mapFind (createZipArchive tasks fs archives id files).2 (archiveKey tasks id) =
      some (entriesOf fs files) ∧
    (entriesOf fs files).length = files.length ∧
    (∀ f ∈ files, readEntry (entriesOf fs files) (filepathBase f) = mapFind fs f) ∧
    (∀ f ∈ files, mapFind (deleteFiles fs files).1 f = none) ∧
    (deleteFiles fs files).2 = none := by
  refine ⟨?_, entriesOf_length fs files hAll, ?_, ?_, deleteFiles_err fs files⟩
  · simp only [createZipArchive]
    rw [mapFind_upd, if_pos rfl]
  · intro f hf
    obtain ⟨b, hb⟩ := Option.isSome_iff_exists.mp (hAll f hf)
    rw [hb]
    exact readEntry_eq _ _ _
      (by rw [entriesOf_keys fs files hAll]; exact hNd)
      (entriesOf_mem fs files f b hf hb)
  · intro f hf
    exact deleteFiles_mem fs files f hf

/-- C9, witness: the two-file round trip on concrete data. -/
theorem C9_archive_roundtrip_witness :
    mapFind (createZipArchive tasksOne fsTwo [] 1 filesTwo).2 (archiveKey tasksOne 1) =
      some (entriesOf fsTwo filesTwo) ∧
    (entriesOf fsTwo filesTwo).length = filesTwo.length ∧
    (∀ f ∈ filesTwo, readEntry (entriesOf fsTwo filesTwo) (filepathBase f) =
       mapFind fsTwo f) ∧
    (∀ f ∈ filesTwo, mapFind (deleteFiles fsTwo filesTwo).1 f = none) ∧
    (deleteFiles fsTwo filesTwo).2 = none :=
  C9_archive_roundtrip tasksOne fsTwo [] 1 filesTwo (by decide) (by decide)

/-- C10: `SaveTask` is total and always returns no error, so the only
error `createTask` can produce is `ServerBusy` (otherwise it succeeds
with the next ID) and the only errors `addLinks` can produce are
`TaskNotFound` and `TooManyLinks`: the save-failure branches — and with
them the spec's noted counter leak on a failed save — are unreachable. -/
theorem C10_save_total :
    (∀ r t, (SaveTask r t).2 = none) ∧
    (∀ s : St, (CreateTask s).1 = Res.err Err.serverBusy ∨
       (CreateTask s).1 = Res.ok (s.taskCounter + 1)) ∧
    (∀ s id urls, (AddLinks s id urls).1 = none ∨
       (AddLinks s id urls).1 = some Err.taskNotFound ∨
       (AddLinks s id urls).1 = some Err.tooManyLinks) := by
  refine ⟨fun r t => rfl, ?_, ?_⟩
  · intro s
    by_cases h : 3 ≤ s.activeTasksCounter
    · left; rw [createTask_busy s h]
    · right; rw [createTask_ok s h]
  · intro s id urls
    cases h : mapFind s.tasks id with
    | none => right; left; rw [addLinks_notFound s id urls h]
    | some task =>
      by_cases hl : 3 ≤ (ledgerGet s id).length
      · right; right; rw [addLinks_full s id urls task h hl]
      · by_cases ho : 3 < (ledgerGet s id).length + urls.length
        · right; right; rw [addLinks_over s id urls task h hl ho]
        · left; rw [addLinks_ok s id urls task h hl ho]

end FilesArchiver
